import Mathlib

/-!
Shallow embedding of the GitLab merge-request Raycast extension
(`src/gitlab.ts` and its variant with approvals support) and proofs about
its query construction and approval-resolution logic.

JavaScript `number` fields carrying counts are modelled as `Int`;
optional (`?:`) fields as `Option`; JSON decode / transport failures as
`Option` results of a lookup oracle.
-/

namespace GitlabExt

/-- `author` / `reviewers` entries of the `MergeRequest` interface. -/
structure UserSummary where
  id : Int
  name : String
  username : String
  avatar_url : Option String
deriving DecidableEq, Repr

/-- `head_pipeline` field of the `MergeRequest` interface. -/
structure HeadPipeline where
  id : Int
  status : String
  web_url : Option String
deriving DecidableEq, Repr

/-- The `MergeRequest` interface of `gitlab.ts` (approvals variant). -/
structure MergeRequest where
  id : Int
  iid : Int
  project_id : Int
  title : String
  description : String
  state : String
  created_at : String
  updated_at : String
  merged_at : Option String
  web_url : String
  author : UserSummary
  reviewers : Option (List UserSummary)
  head_pipeline : Option HeadPipeline
  approved : Option Bool
  source_branch : String
  target_branch : String
  draft : Bool
  work_in_progress : Option Bool
  approvals_required : Option Int
  upvotes : Int
  downvotes : Int
deriving DecidableEq, Repr

/-- Helper for building concrete merge requests in examples: only the
identifier fields vary, the remaining fields take neutral values. -/
def mkMR (id iid pid : Int) : MergeRequest :=
  { id := id, iid := iid, project_id := pid, title := "", description := "",
    state := "opened", created_at := "", updated_at := "", merged_at := none,
    web_url := "", author := { id := 0, name := "", username := "", avatar_url := none },
    reviewers := none, head_pipeline := none, approved := none,
    source_branch := "", target_branch := "", draft := false,
    work_in_progress := none, approvals_required := none,
    upvotes := 0, downvotes := 0 }

/-- A `user` object inside an `approved_by` entry of the approvals JSON. -/
structure ApprovalUser where
  id : Int
  name : String
deriving DecidableEq, Repr

/-- One entry of the `approved_by` array of the approvals JSON
(`Array<{ user?: { id: number; name: string } }>`). -/
structure ApprovedByEntry where
  user : Option ApprovalUser
deriving DecidableEq, Repr

/-- The decoded per-item approvals payload used in `useApprovals`:
`{ approved?; approvals_left?; approvals_required?; approved_by? }`. -/
structure ApprovalsJson where
  approved : Option Bool
  approvals_left : Option Int
  approvals_required : Option Int
  approved_by : Option (List ApprovedByEntry)
deriving DecidableEq, Repr

/-- The primary approval rule of `useApprovals` (the `if/else` before the
fallback): `approvalsRequired = json.approvals_required ?? 0`,
`approvalsLeft = json.approvals_left ?? (approvalsRequired === 0 ? 0 : undefined)`,
`approversCount = json.approved_by?.length ?? 0`; approved when
`approvalsRequired > 0 && approvalsLeft === 0 && approversCount > 0`. -/
def primaryApproved (json : ApprovalsJson) : Bool :=
  let approvalsRequired : Int := json.approvals_required.getD 0
  let approvalsLeft : Option Int :=
    match json.approvals_left with
    | some l => some l
    | none => if approvalsRequired = 0 then some 0 else none
  let approversCount : Nat := (json.approved_by.getD []).length
  if approvalsRequired > 0 then
    decide (approvalsLeft = some 0) && decide (approversCount > 0)
  else
    false

/-- The full per-item approval resolution of `useApprovals`: the primary
rule, then the fallback
`if (!isApproved && json.approved === true && approversCount > 0) isApproved = true`. -/
def resolveApproval (json : ApprovalsJson) : Bool :=
  let isApproved := primaryApproved json
  let approversCount : Nat := (json.approved_by.getD []).length
  if !isApproved && json.approved == some true && decide (approversCount > 0) then
    true
  else
    isApproved

/-- The per-item approvals URL path of `useApprovals`:
`/api/v4/projects/${mr.project_id}/merge_requests/${mr.iid}/approvals`. -/
def approvalsPath (mr : MergeRequest) : String :=
  "/api/v4/projects/" ++ toString mr.project_id ++ "/merge_requests/"
    ++ toString mr.iid ++ "/approvals"

/-- One item of the `Promise.all` in `useApprovals`. The `lookup` oracle
returns `none` on a non-2xx response, a thrown transport error, or a decode
failure (the `if (!res.ok) return undefined` and `catch` branches); on
success it yields the decoded payload, turned into the entry
`[mr.id, isApproved]`. -/
def approvalEntry (lookup : MergeRequest → Option ApprovalsJson)
    (mr : MergeRequest) : Option (Int × Bool) :=
  (lookup mr).map fun json => (mr.id, resolveApproval json)

/-- The entries collected from a list of merge requests: the
`entries.filter`-style loop `for (const e of entries) if (e) map[e[0]] = e[1]`
keeps exactly the non-`undefined` entries, in order. -/
def batchEntries (lookup : MergeRequest → Option ApprovalsJson)
    (mrs : List MergeRequest) : List (Int × Bool) :=
  mrs.filterMap (approvalEntry lookup)

/-- One run of the `useApprovals` effect body:
`const subset = mrs.slice(0, 25)` then the per-item lookups. -/
def runApprovalsBatch (lookup : MergeRequest → Option ApprovalsJson)
    (mrs : List MergeRequest) : List (Int × Bool) :=
  batchEntries lookup (mrs.take 25)

/-- The lookup requests a batch issues: one approvals URL per item of the
25-item prefix. -/
def issuedLookups (mrs : List MergeRequest) : List String :=
  (mrs.take 25).map approvalsPath

/-- Lookup in a JS `Record` built by in-order assignment
(`map[e[0]] = e[1]`): the last write to a key wins. -/
def recordLookup (entries : List (Int × Bool)) (k : Int) : Option Bool :=
  (entries.reverse.find? (fun e => e.1 == k)).map Prod.snd

/-- State of the `useApprovals` effect machinery. The per-effect
`cancelled` flag of the source is modelled by a generation counter:
`latest` is the generation of the most recently dispatched batch; the
cleanup of a superseded effect sets the old batch's `cancelled`, so a
batch's `setApprovedMap` merge runs exactly when its generation is still
`latest` when its `Promise.all` settles. `approvedMap` is the entry log of
the JS record (later entries win on lookup via `recordLookup`). -/
structure ResolverState where
  latest : Nat
  pending : List (Nat × List (Int × Bool))
  approvedMap : List (Int × Bool)
deriving DecidableEq, Repr

/-- An event of the effect lifecycle: a new merge-request list arrives and
dispatches a batch whose eventual lookup results are `entries`, or the
in-flight batch of generation `gen` settles. -/
inductive ResolverEvent where
  | dispatch (entries : List (Int × Bool))
  | complete (gen : Nat)
deriving DecidableEq, Repr

/-- One lifecycle step. A dispatch runs the previous effect's cleanup
(cancelling every older generation) and starts generation `latest + 1`. A
completion commits `setApprovedMap(prev => ({ ...prev, ...map }))` only
when its generation is still the latest; a cancelled (stale) completion
hits the `if (cancelled) return` and changes nothing. -/
def resolverStep (s : ResolverState) : ResolverEvent → ResolverState
  | .dispatch entries =>
      { latest := s.latest + 1,
        pending := (s.latest + 1, entries) :: s.pending,
        approvedMap := s.approvedMap }
  | .complete gen =>
      if gen = s.latest then
        match s.pending.find? (fun pb => pb.1 == gen) with
        | some pb => { s with approvedMap := s.approvedMap ++ pb.2 }
        | none => s
      else s

/-- A sequence of lifecycle steps. -/
def runResolver (s : ResolverState) (es : List ResolverEvent) : ResolverState :=
  es.foldl resolverStep s

/-- A value of the `searchParams` record of `buildGitLabURL`
(`string | number | undefined | null`). -/
inductive ParamValue where
  | str (s : String)
  | num (n : Int)
  | null
  | undef
deriving DecidableEq, Repr

/-- JS `String(value)` for the values that survive the filter. -/
def jsString : ParamValue → String
  | .str s => s
  | .num n => toString n
  | .null => "null"
  | .undef => "undefined"

/-- The skip condition of the `buildGitLabURL` loop:
`if (value === undefined || value === null || value === "") continue`. -/
def keepParam : ParamValue → Bool
  | .undef => false
  | .null => false
  | .str s => !(s == "")
  | .num _ => true

/-- The key/value pairs actually set on `url.searchParams` by
`buildGitLabURL`, in entry order. -/
def filterParams (ps : List (String × ParamValue)) : List (String × String) :=
  ps.filterMap fun kv => if keepParam kv.2 then some (kv.1, jsString kv.2) else none

/-- The serialized query string appended by `url.toString()`: empty when no
parameter survives, otherwise `?k1=v1&k2=v2&...`. Percent-encoding is not
modelled; the parameters the extension passes need none. -/
def queryString (ps : List (String × ParamValue)) : String :=
  match filterParams ps with
  | [] => ""
  | pairs => "?" ++ String.intercalate "&" (pairs.map fun kv => kv.1 ++ "=" ++ kv.2)

/-- Character-level model of `gitlabInstance.endsWith("/")`. -/
def endsWithSlash (s : String) : Bool := s.data.getLast? == some '/'

/-- Character-level model of the regex test in `path.replace(/^\//, "")`. -/
def startsWithSlash (s : String) : Bool := s.data.head? == some '/'

/-- `path.replace(/^\//, "")`: drops exactly one leading slash. -/
def dropLeadingSlash (s : String) : String :=
  if startsWithSlash s then String.mk s.data.tail else s

/-- The base normalization of `buildGitLabURL`:
`gitlabInstance.endsWith("/") ? gitlabInstance : gitlabInstance + "/"`. -/
def normalizeBase (base : String) : String :=
  if endsWithSlash base then base else base ++ "/"

/-- `new URL(strippedPath, normalizedBase)` for the slash-free relative
paths the extension passes: base-directory resolution concatenates. -/
def resolveAgainstBase (base path : String) : String :=
  normalizeBase base ++ dropLeadingSlash path

/-- `buildGitLabURL(path, searchParams)` with the `gitlabInstance`
preference made an explicit argument; an absent `searchParams` record is
the empty list. -/
def buildGitLabURL (gitlabInstance path : String)
    (searchParams : List (String × ParamValue)) : String :=
  resolveAgainstBase gitlabInstance path ++ queryString searchParams

/-- The `UseMergeRequestsParams` interface: every field optional. -/
structure UseMergeRequestsParams where
  search : Option String
  scope : Option String
  state : Option String
  perPage : Option Int
deriving DecidableEq, Repr

/-- The `searchParams` record `useMergeRequests` passes to
`buildGitLabURL`, after the destructuring defaults
`search = "", scope = "assigned_to_me", state = "opened", perPage = 20`,
with `effectiveState = state === "all" ? undefined : state`,
`search: search || undefined` and `in: search ? "title" : undefined`. -/
def mergeRequestListParams (p : UseMergeRequestsParams) : List (String × ParamValue) :=
  let search := p.search.getD ""
  let scope := p.scope.getD "assigned_to_me"
  let state := p.state.getD "opened"
  let perPage := p.perPage.getD 20
  let effectiveState : ParamValue := if state == "all" then .undef else .str state
  [("search", if search == "" then .undef else .str search),
   ("in", if search == "" then .undef else .str "title"),
   ("scope", .str scope),
   ("state", effectiveState),
   ("order_by", .str "updated_at"),
   ("sort", .str "desc"),
   ("per_page", .num perPage)]

/-- Outcome of one `useMergeRequests` call: either the early `!gitlabToken`
return (`data: undefined, isLoading: false, error: message`), or a
`useFetch` call on the built URL whose `execute` option is
`!(scope === "all" && !search)`. -/
inductive MRListOutcome where
  | notConfigured (data : Option (List MergeRequest)) (isLoading : Bool)
      (errorMessage : String)
  | fetch (url : String) (execute : Bool)
deriving DecidableEq, Repr

/-- `useMergeRequests` with the two preferences made explicit arguments. -/
def useMergeRequests (gitlabInstance gitlabToken : String)
    (p : UseMergeRequestsParams) : MRListOutcome :=
  let search := p.search.getD ""
  let scope := p.scope.getD "assigned_to_me"
  let shouldDefer := scope == "all" && search == ""
  let url := buildGitLabURL gitlabInstance "/api/v4/merge_requests"
    (mergeRequestListParams p)
  if gitlabToken == "" then
    .notConfigured none false "GitLab token not set in preferences"
  else
    .fetch url (!shouldDefer)

/-- Whether an outcome dispatches a network request: the early
not-configured return never fetches; a `useFetch` call fetches exactly when
its `execute` option is true. -/
def outcomeExecutes : MRListOutcome → Bool
  | .notConfigured _ _ _ => false
  | .fetch _ e => e

end GitlabExt

namespace GitlabExt

/-- C1: with a positive `approvals_required` and `approvals_left == 0`, the
resolved approval boolean is true exactly when the `approved_by` list is
non-empty; in particular an empty `approved_by` yields `false` even when the
server reports `approved == true`. -/
theorem resolveApproval_required_pos_left_zero_iff_approvers
    (json : ApprovalsJson) (r : Int)
    (hreq : json.approvals_required = some r) (hr : 0 < r)
    (hleft : json.approvals_left = some 0) :
    resolveApproval json = true ↔ 0 < (json.approved_by.getD []).length := by
  rcases Nat.eq_zero_or_pos (json.approved_by.getD []).length with hlen | hlen
  · simp [resolveApproval, primaryApproved, hreq, hleft, hlen, hr, gt_iff_lt]
  · simp [resolveApproval, primaryApproved, hreq, hleft, hlen, hr, gt_iff_lt]

/-- A concrete approvals payload: two approvals required, none left, one
recorded approver. -/
def approvalsOneApprover : ApprovalsJson :=
  { approved := some true, approvals_left := some 0,
    approvals_required := some 2,
    approved_by := some [{ user := some { id := 7, name := "a" } }] }

/-- A concrete approvals payload: two approvals required, none left, server
says approved, but no recorded approver. -/
def approvalsNoApprover : ApprovalsJson :=
  { approved := some true, approvals_left := some 0,
    approvals_required := some 2, approved_by := some [] }

/-- Witness for C1 at both a non-empty and the empty `approved_by` list. -/
theorem resolveApproval_required_pos_left_zero_iff_approvers_witness :
    resolveApproval approvalsOneApprover = true
    ∧ resolveApproval approvalsNoApprover = false := by
  constructor
  · exact (resolveApproval_required_pos_left_zero_iff_approvers
      approvalsOneApprover 2 rfl (by decide) rfl).mpr (by decide)
  · have h := resolveApproval_required_pos_left_zero_iff_approvers
      approvalsNoApprover 2 rfl (by decide) rfl
    cases hx : resolveApproval approvalsNoApprover
    · rfl
    · exact absurd (h.mp hx) (by decide)

/-- C2: with `approvals_required` zero or absent and no recorded approver,
the resolved approval boolean is `false`, even when the server reports
`approved == true`. -/
theorem resolveApproval_no_rule_no_approvers_false
    (json : ApprovalsJson)
    (hreq : json.approvals_required = none ∨ json.approvals_required = some 0)
    (hby : (json.approved_by.getD []).length = 0) :
    resolveApproval json = false := by
  rcases hreq with hreq | hreq <;>
    simp [resolveApproval, primaryApproved, hreq, hby]

/-- Witness for C2: no approval rule configured, server claims approved,
empty `approved_by`. -/
theorem resolveApproval_no_rule_no_approvers_false_witness :
    resolveApproval
      { approved := some true, approvals_left := none,
        approvals_required := some 0, approved_by := some [] } = false :=
  resolveApproval_no_rule_no_approvers_false
    { approved := some true, approvals_left := none,
      approvals_required := some 0, approved_by := some [] }
    (Or.inr rfl) rfl

/-- C3: whenever the primary rule yields not-approved but the server
reports `approved == true` and `approved_by` is non-empty, the fallback
makes the resolved boolean `true`. -/
theorem resolveApproval_fallback_override
    (json : ApprovalsJson)
    (hprim : primaryApproved json = false)
    (happ : json.approved = some true)
    (hby : 0 < (json.approved_by.getD []).length) :
    resolveApproval json = true := by
  simp [resolveApproval, hprim, happ, hby]

/-- Witness for C3 at the concrete payload of the claim:
`approvals_required == 2`, `approvals_left` absent, server `approved == true`,
`approved_by` of length 1. -/
theorem resolveApproval_fallback_override_witness :
    resolveApproval
      { approved := some true, approvals_left := none,
        approvals_required := some 2,
        approved_by := some [{ user := some { id := 3, name := "b" } }] } = true :=
  resolveApproval_fallback_override
    { approved := some true, approvals_left := none,
      approvals_required := some 2,
      approved_by := some [{ user := some { id := 3, name := "b" } }] }
    (by decide) rfl (by decide)

/-- C4: a batch issues lookups only for the 25-item prefix (at most 25
requests), and any id that is not the id of one of the first 25 items is
absent from the resulting mapping. -/
theorem runApprovalsBatch_limit
    (mrs : List MergeRequest) (lookup : MergeRequest → Option ApprovalsJson) :
    (issuedLookups mrs).length ≤ 25
    ∧ ∀ k : Int, k ∉ (mrs.take 25).map MergeRequest.id →
        recordLookup (runApprovalsBatch lookup mrs) k = none := by
  refine ⟨?_, ?_⟩
  · simp only [issuedLookups, List.length_map, List.length_take]
    omega
  · intro k hk
    have hnone : (runApprovalsBatch lookup mrs).reverse.find? (fun e => e.1 == k)
        = none := by
      apply List.find?_eq_none.mpr
      intro e he
      rw [List.mem_reverse] at he
      rcases List.mem_filterMap.mp
          (by simpa [runApprovalsBatch, batchEntries] using he) with ⟨mr, hmr, hentry⟩
      simp only [approvalEntry, Option.map_eq_some'] at hentry
      rcases hentry with ⟨j, _, hje⟩
      intro hbeq
      apply hk
      rw [List.mem_map]
      refine ⟨mr, hmr, ?_⟩
      have : e.1 = mr.id := by rw [← hje]
      exact (eq_of_beq hbeq) ▸ this.symm
    simp [recordLookup, hnone]

/-- A 30-item merge-request list with ids (and iids) 1..30 in project 1. -/
def mrs30 : List MergeRequest :=
  (List.range 30).map (fun i => mkMR (i + 1) (i + 1) 1)

/-- A lookup oracle that reports every item as genuinely approved. -/
def allApprovedLookup : MergeRequest → Option ApprovalsJson := fun _ =>
  some { approved := some true, approvals_left := some 0,
         approvals_required := some 1,
         approved_by := some [{ user := some { id := 1, name := "u" } }] }

/-- Witness for C4: on the 30-item list, id 26 is absent from the mapping. -/
theorem runApprovalsBatch_limit_witness :
    (issuedLookups mrs30).length ≤ 25
    ∧ recordLookup (runApprovalsBatch allApprovedLookup mrs30) 26 = none :=
  ⟨(runApprovalsBatch_limit mrs30 allApprovedLookup).1,
   (runApprovalsBatch_limit mrs30 allApprovedLookup).2 26 (by decide)⟩

/-- Helper for C5: failing a single item's lookup yields the same entry list
as removing that item from the batch and running the intact lookup. -/
theorem batchEntries_update_none (l : List MergeRequest)
    (lookup : MergeRequest → Option ApprovalsJson) (mr₀ : MergeRequest) :
    batchEntries (fun mr => if mr = mr₀ then none else lookup mr) l
      = batchEntries lookup (l.filter (fun mr => !decide (mr = mr₀))) := by
  induction l with
  | nil => rfl
  | cons a t ih =>
    by_cases ha : a = mr₀
    · have h1 : approvalEntry (fun mr => if mr = mr₀ then none else lookup mr) a
          = none := by
        simp [approvalEntry, ha]
      have h2 : (!decide (a = mr₀)) = false := by simp [ha]
      simp only [batchEntries, List.filterMap_cons, List.filter_cons, h1, h2,
        Bool.false_eq_true, if_false] at *
      exact ih
    · have h1 : approvalEntry (fun mr => if mr = mr₀ then none else lookup mr) a
          = approvalEntry lookup a := by
        simp [approvalEntry, ha]
      have h2 : (!decide (a = mr₀)) = true := by simp [ha]
      simp only [batchEntries, List.filterMap_cons, List.filter_cons, h1, h2,
        if_true] at *
      cases approvalEntry lookup a <;> simp [List.filterMap_cons, ih]

/-- C6: a key all of whose bound values are undefined, null, or empty
strings never appears in the query pairs; in particular, with
`state == "all"` the `state` key is omitted entirely. -/
theorem filterParams_omits_empty_and_state_all :
    (∀ (ps : List (String × ParamValue)) (k : String),
        (∀ v, (k, v) ∈ ps →
          v = ParamValue.undef ∨ v = ParamValue.null ∨ v = ParamValue.str "") →
        k ∉ (filterParams ps).map Prod.fst)
    ∧ (∀ p : UseMergeRequestsParams, p.state = some "all" →
        "state" ∉ (filterParams (mergeRequestListParams p)).map Prod.fst) := by
  have hgen : ∀ (ps : List (String × ParamValue)) (k : String),
      (∀ v, (k, v) ∈ ps →
        v = ParamValue.undef ∨ v = ParamValue.null ∨ v = ParamValue.str "") →
      k ∉ (filterParams ps).map Prod.fst := by
    intro ps k hall hmem
    rw [List.mem_map] at hmem
    rcases hmem with ⟨kv, hkv, hfst⟩
    rcases List.mem_filterMap.mp hkv with ⟨⟨k₀, v₀⟩, hmem₀, hsome⟩
    by_cases hkeep : keepParam v₀ = true
    · rw [if_pos hkeep] at hsome
      injection hsome with h
      subst h
      simp only at hfst
      subst hfst
      rcases hall v₀ hmem₀ with hv | hv | hv <;> subst hv <;> simp [keepParam] at hkeep
    · rw [if_neg hkeep] at hsome
      exact Option.noConfusion hsome
  refine ⟨hgen, ?_⟩
  intro p hstate
  apply hgen
  intro v hv
  simp [mergeRequestListParams, hstate] at hv
  simp [hv]

/-- The concrete all-scope, empty-search parameter record. -/
def paramsScopeAllNoSearch : UseMergeRequestsParams :=
  { search := none, scope := some "all", state := none, perPage := none }

/-- Witness for C6 at a concrete parameter list and at `state == "all"`. -/
theorem filterParams_omits_empty_and_state_all_witness :
    "q" ∉ (filterParams [("q", ParamValue.str ""), ("r", ParamValue.num 1)]).map Prod.fst
    ∧ "state" ∉ (filterParams (mergeRequestListParams
        { search := none, scope := none, state := some "all",
          perPage := none })).map Prod.fst :=
  ⟨filterParams_omits_empty_and_state_all.1
      [("q", ParamValue.str ""), ("r", ParamValue.num 1)] "q"
      (by intro v hv
          simp at hv
          simp [hv]),
   filterParams_omits_empty_and_state_all.2
      { search := none, scope := none, state := some "all", perPage := none } rfl⟩

/-- C7: with a token configured, the `execute` flag of the dispatched fetch
is false exactly when scope is `"all"` and the search text is empty; every
other scope/search combination executes. -/
theorem useMergeRequests_defer_iff
    (gitlabInstance gitlabToken : String) (p : UseMergeRequestsParams)
    (htok : gitlabToken ≠ "") :
    outcomeExecutes (useMergeRequests gitlabInstance gitlabToken p) = false
      ↔ (p.scope.getD "assigned_to_me" = "all" ∧ p.search.getD "" = "") := by
  simp [useMergeRequests, outcomeExecutes, htok]

/-- Witness for C7: scope `"all"` with empty search does not execute. -/
theorem useMergeRequests_defer_iff_witness :
    outcomeExecutes (useMergeRequests "https://gitlab.example.com" "token"
        paramsScopeAllNoSearch) = false
      ↔ (paramsScopeAllNoSearch.scope.getD "assigned_to_me" = "all"
          ∧ paramsScopeAllNoSearch.search.getD "" = "") :=
  useMergeRequests_defer_iff "https://gitlab.example.com" "token"
    paramsScopeAllNoSearch (by decide)

/-- C9: with no token configured, `useMergeRequests` returns the early
not-configured result (`data` undefined, not loading, the recognizable
error message) and dispatches no network request. -/
theorem useMergeRequests_no_token
    (gitlabInstance : String) (p : UseMergeRequestsParams) :
    useMergeRequests gitlabInstance "" p
        = MRListOutcome.notConfigured none false "GitLab token not set in preferences"
    ∧ outcomeExecutes (useMergeRequests gitlabInstance "" p) = false := by
  constructor <;> simp [useMergeRequests, outcomeExecutes]

/-- C5: an individual failing lookup never fails the batch (the model is a
total function), the failing item is simply omitted, and every other item's
entry is exactly what the intact lookup produces for it. -/
theorem runApprovalsBatch_failed_lookup_omitted
    (mrs : List MergeRequest) (lookup : MergeRequest → Option ApprovalsJson)
    (mr₀ : MergeRequest) :
    runApprovalsBatch (fun mr => if mr = mr₀ then none else lookup mr) mrs
      = batchEntries lookup
          ((mrs.take 25).filter (fun mr => !decide (mr = mr₀))) := by
  simpa [runApprovalsBatch] using batchEntries_update_none (mrs.take 25) lookup mr₀

/-- Appending strings concatenates their character lists. -/
theorem string_data_append (s t : String) : (s ++ t).data = s.data ++ t.data := rfl

/-- Any base extended with `"/"` ends with a slash. -/
theorem endsWithSlash_append_slash (s : String) :
    endsWithSlash (s ++ "/") = true := by
  have h : (s ++ "/").data = s.data ++ ['/'] := rfl
  simp [endsWithSlash, h, List.getLast?_concat]

/-- Normalizing a slash-free base extended with `"/"` equals normalizing
the base itself. -/
theorem normalizeBase_append_slash (s : String) (h : endsWithSlash s = false) :
    normalizeBase (s ++ "/") = normalizeBase s := by
  simp [normalizeBase, endsWithSlash_append_slash, h]

/-- Any path prefixed with `"/"` starts with a slash. -/
theorem startsWithSlash_slash_append (s : String) :
    startsWithSlash ("/" ++ s) = true := by
  have h : ("/" ++ s).data = '/' :: s.data := rfl
  simp [startsWithSlash, h]

/-- Stripping the leading slash from a slash-prefixed slash-free path gives
the path back. -/
theorem dropLeadingSlash_slash_append (s : String) (h : startsWithSlash s = false) :
    dropLeadingSlash ("/" ++ s) = dropLeadingSlash s := by
  have hd : ("/" ++ s).data = '/' :: s.data := rfl
  simp only [dropLeadingSlash, startsWithSlash_slash_append, if_true, h,
    Bool.false_eq_true, if_false, hd, List.tail_cons]

/-- C10: `buildGitLabURL` is normalization-invariant: giving the base its
missing trailing slash, or the path its missing leading slash, leaves the
built URL unchanged. -/
theorem buildGitLabURL_normalization_invariant
    (gitlabInstance path : String) (ps : List (String × ParamValue)) :
    (endsWithSlash gitlabInstance = false →
      buildGitLabURL (gitlabInstance ++ "/") path ps
        = buildGitLabURL gitlabInstance path ps)
    ∧ (startsWithSlash path = false →
      buildGitLabURL gitlabInstance ("/" ++ path) ps
        = buildGitLabURL gitlabInstance path ps) := by
  constructor
  · intro h
    simp [buildGitLabURL, resolveAgainstBase, normalizeBase_append_slash _ h]
  · intro h
    simp [buildGitLabURL, resolveAgainstBase, dropLeadingSlash_slash_append _ h]

/-- Witness for C10 at a concrete base, path and parameter list. -/
theorem buildGitLabURL_normalization_invariant_witness :
    buildGitLabURL ("https://gitlab.example.com" ++ "/") "api/v4/merge_requests"
        [("scope", ParamValue.str "assigned_to_me")]
      = buildGitLabURL "https://gitlab.example.com" "api/v4/merge_requests"
        [("scope", ParamValue.str "assigned_to_me")]
    ∧ buildGitLabURL "https://gitlab.example.com" ("/" ++ "api/v4/merge_requests")
        [("scope", ParamValue.str "assigned_to_me")]
      = buildGitLabURL "https://gitlab.example.com" "api/v4/merge_requests"
        [("scope", ParamValue.str "assigned_to_me")] :=
  ⟨(buildGitLabURL_normalization_invariant "https://gitlab.example.com"
      "api/v4/merge_requests" [("scope", ParamValue.str "assigned_to_me")]).1
      (by decide),
   (buildGitLabURL_normalization_invariant "https://gitlab.example.com"
      "api/v4/merge_requests" [("scope", ParamValue.str "assigned_to_me")]).2
      (by decide)⟩

/-- A lifecycle step never decreases the generation counter. -/
theorem latest_le_resolverStep (s : ResolverState) (e : ResolverEvent) :
    s.latest ≤ (resolverStep s e).latest := by
  cases e with
  | dispatch entries => exact Nat.le_succ _
  | complete gen =>
    simp only [resolverStep]
    split
    · split <;> simp
    · exact Nat.le_refl _

/-- A run of lifecycle steps never decreases the generation counter. -/
theorem latest_le_runResolver (s : ResolverState) (es : List ResolverEvent) :
    s.latest ≤ (runResolver s es).latest := by
  induction es generalizing s with
  | nil => exact Nat.le_refl _
  | cons e t ih => exact le_trans (latest_le_resolverStep s e) (ih (resolverStep s e))

/-- A run containing at least one dispatch strictly increases the
generation counter. -/
theorem latest_lt_of_dispatch_mem (s : ResolverState) (es : List ResolverEvent)
    (h : ∃ b, ResolverEvent.dispatch b ∈ es) :
    s.latest < (runResolver s es).latest := by
  induction es generalizing s with
  | nil =>
    rcases h with ⟨b, hb⟩
    cases hb
  | cons e t ih =>
    have hrw : runResolver s (e :: t) = runResolver (resolverStep s e) t := rfl
    rw [hrw]
    rcases h with ⟨b, hb⟩
    rcases List.mem_cons.mp hb with he | ht
    · subst he
      exact lt_of_lt_of_le (Nat.lt_succ_self _)
        (latest_le_runResolver (resolverStep s (.dispatch b)) t)
    · exact lt_of_le_of_lt (latest_le_resolverStep s e) (ih (resolverStep s e) ⟨b, ht⟩)

/-- Completing a batch whose generation is not the latest changes nothing:
its `cancelled` flag was set by the superseding effect's cleanup. -/
theorem resolverStep_complete_stale (s : ResolverState) (gen : Nat)
    (h : gen ≠ s.latest) : resolverStep s (.complete gen) = s := by
  simp [resolverStep, h]

/-- C8: a batch dispatched at generation `latest + 1` and superseded by at
least one newer dispatch before it settles commits nothing on completion:
the approval mapping is exactly what the newer events produced. -/
theorem stale_batch_results_never_committed
    (s : ResolverState) (entries : List (Int × Bool)) (es : List ResolverEvent)
    (h : ∃ b, ResolverEvent.dispatch b ∈ es) :
    (runResolver (resolverStep s (.dispatch entries))
        (es ++ [.complete (s.latest + 1)])).approvedMap
      = (runResolver (resolverStep s (.dispatch entries)) es).approvedMap := by
  have hlt : (resolverStep s (.dispatch entries)).latest
      < (runResolver (resolverStep s (.dispatch entries)) es).latest :=
    latest_lt_of_dispatch_mem _ es h
  have hstep : (resolverStep s (.dispatch entries)).latest = s.latest + 1 := rfl
  have hg : s.latest + 1
      ≠ (runResolver (resolverStep s (.dispatch entries)) es).latest := by
    omega
  have happend : runResolver (resolverStep s (.dispatch entries))
        (es ++ [.complete (s.latest + 1)])
      = resolverStep (runResolver (resolverStep s (.dispatch entries)) es)
        (.complete (s.latest + 1)) := by
    simp [runResolver, List.foldl_append]
  rw [happend, resolverStep_complete_stale _ _ hg]

/-- Witness for C8: generation 1 is superseded by a second dispatch before
settling; completing it leaves the mapping unchanged. -/
theorem stale_batch_results_never_committed_witness :
    (runResolver (resolverStep ⟨0, [], []⟩ (.dispatch [(1, true)]))
        ([.dispatch [(1, false)]] ++ [.complete 1])).approvedMap
      = (runResolver (resolverStep ⟨0, [], []⟩ (.dispatch [(1, true)]))
        [.dispatch [(1, false)]]).approvedMap :=
  stale_batch_results_never_committed ⟨0, [], []⟩ [(1, true)]
    [.dispatch [(1, false)]] ⟨[(1, false)], by simp⟩

end GitlabExt
